import Mathlib

/-!
# PDFMentor annotation overlay subsystem — verification development

Shallow embedding of the annotation overlay subsystem implemented in
`frontend/src/components/PDFViewer.tsx`:

* the data model (`DOMRect`, `Highlight`, `SelectionData`, `HighlightColor`);
* the viewer's React state (`ViewerState` mirrors the `useState` hooks
  `numPages`, `error`, `highlights`, `selectedColor`, `selectionData`,
  `highlightToDelete`, plus the browser text-selection flag touched by
  `window.getSelection()?.removeAllRanges()`);
* the handlers `onDocumentLoadSuccess`, `onDocumentLoadError`,
  `handleTextSelection`, `createHighlight`, `showDeleteUI`,
  `confirmRemoveHighlight`, `clearAllHighlights`, the background-click
  dismiss handler of the `Document` element, and the color-picker handler;
* an event/trace semantics (`Event`, `step`, `validTrace`, `run`) that fires
  these handlers the way the rendered component can fire them.

Pixel coordinates (`DOMRect` fields, anchor positions) are modelled as
integers: the browser supplies finite `double`s, but the only operations the
component performs on them are addition and subtraction, which are exact, so
every claim here is about exact offset arithmetic and holds uniformly in the
coordinate ring. Identifiers generated by
`Date.now().toString() + Math.random()` are modelled by `genId`, parametrised
by the clock reading and the decimal rendering of the random draw (JavaScript
string concatenation stringifies the number).
-/

namespace PDFMentor

/-- A browser `DOMRect` as the component uses it: `x`/`left`, `y`/`top`,
`width`, `height`. The component only ever reads `left`, `top`, `width`,
`height` and constructs rects via `new DOMRect(x, y, w, h)`. -/
structure DOMRect where
  x : ℤ
  y : ℤ
  width : ℤ
  height : ℤ
  deriving DecidableEq, Repr

/-- A 2-D pixel position (the `{x, y}` object used for the highlight-button
anchor `buttonPosition`). -/
structure Pos where
  x : ℤ
  y : ℤ
  deriving DecidableEq, Repr

/-- One entry of the `HIGHLIGHT_COLORS` palette: `{ name, value, border }`. -/
structure HighlightColor where
  name : String
  value : String
  border : String
  deriving DecidableEq, Repr

/-- The fixed palette `HIGHLIGHT_COLORS` from `PDFViewer.tsx`. -/
def HIGHLIGHT_COLORS : List HighlightColor :=
  [ { name := "Yellow", value := "rgba(255, 255, 0, 0.3)", border := "#ffd700" },
    { name := "Green", value := "rgba(144, 238, 144, 0.3)", border := "#90ee90" },
    { name := "Blue", value := "rgba(135, 206, 250, 0.3)", border := "#87ceeb" },
    { name := "Pink", value := "rgba(255, 192, 203, 0.3)", border := "#ffb6c1" },
    { name := "Orange", value := "rgba(255, 165, 0, 0.3)", border := "#ffa500" } ]

/-- The `Highlight` record of `PDFViewer.tsx`:
`{ id, pageNumber, rects, color, text }`. -/
structure Highlight where
  id : String
  pageNumber : ℕ
  rects : List DOMRect
  color : String
  text : String
  deriving DecidableEq, Repr

/-- The `selectionData` record (the pending selection):
`{ pageNumber, rects, text, position }`. -/
structure SelectionData where
  pageNumber : ℕ
  rects : List DOMRect
  text : String
  position : Pos
  deriving DecidableEq, Repr

/-- The relevant part of a browser `Selection`/`Range` pair as
`handleTextSelection` reads it after the 10 ms settle delay:
`selection.isCollapsed`, `selection.rangeCount`, `selection.toString()`
(field `text`), and `range.getClientRects()` (field `clientRects`). -/
structure Selection where
  isCollapsed : Bool
  rangeCount : ℕ
  text : String
  clientRects : List DOMRect
  deriving DecidableEq, Repr

/-- The viewer component's state: the `useState` hooks of `PDFViewer`,
plus `browserHasSelection`, which models whether the browser text selection
still holds live ranges (cleared by `window.getSelection()?.removeAllRanges()`
in `createHighlight`). -/
structure ViewerState where
  numPages : ℕ
  error : Option String
  highlights : List Highlight
  selectedColor : HighlightColor
  selectionData : Option SelectionData
  highlightToDelete : Option String
  browserHasSelection : Bool
  deriving DecidableEq, Repr

/-- Initial component state: `numPages = 0`, no error, no highlights,
`selectedColor = HIGHLIGHT_COLORS[0]`, no pending selection, no armed
highlight. -/
def initState : ViewerState where
  numPages := 0
  error := none
  highlights := []
  selectedColor := HIGHLIGHT_COLORS.getD 0 ⟨"", "", ""⟩
  selectionData := none
  highlightToDelete := none
  browserHasSelection := false

/-- `onDocumentLoadSuccess`: `setNumPages(numPages); setError(null)` (the
`onLoadSuccess?.(numPages)` parent callback does not touch overlay state). -/
def onDocumentLoadSuccess (numPages : ℕ) (s : ViewerState) : ViewerState :=
  { s with numPages := numPages, error := none }

/-- `onDocumentLoadError`: sets the fixed error message. -/
def onDocumentLoadError (s : ViewerState) : ViewerState :=
  { s with error := some "Failed to load PDF. Please try uploading again." }

/-- The rectangle map inside `handleTextSelection`:
`rects.map(rect => new DOMRect(rect.left - pageRect.left, rect.top - pageRect.top, rect.width, rect.height))`. -/
def relativeRects (rects : List DOMRect) (pageRect : DOMRect) : List DOMRect :=
  rects.map fun rect =>
    { x := rect.x - pageRect.x, y := rect.y - pageRect.y,
      width := rect.width, height := rect.height }

/-- The anchor computation inside `handleTextSelection`:
`{ x: firstRect.left - pageRect.left, y: firstRect.top - pageRect.top - 40 }`. -/
def buttonPosition (firstRect pageRect : DOMRect) : Pos :=
  { x := firstRect.x - pageRect.x, y := firstRect.y - pageRect.y - 40 }

/-- JavaScript's `String.prototype.trim()` as `handleTextSelection` applies it
to `selection.toString()`: strip whitespace from both ends (written
structurally over the character list so it computes by kernel reduction). -/
def jsTrim (s : String) : String :=
  String.mk (((s.data.dropWhile Char.isWhitespace).reverse.dropWhile
    Char.isWhitespace).reverse)

/-- `handleTextSelection(pageNumber)`, after the 10 ms `setTimeout` fires.
`selection` is `window.getSelection()` (`none` when null) and `pageContainer`
is `pageRefs.current[pageNumber]`'s bounding rect (`none` when the page
surface is not mounted). Mirrors the source's early returns in order:
no/collapsed/zero-range selection, empty trimmed text, zero client
rectangles, missing page container. -/
def handleTextSelection (pageNumber : ℕ) (selection : Option Selection)
    (pageContainer : Option DOMRect) (s : ViewerState) : ViewerState :=
  match selection with
  | none => s
  | some sel =>
    if sel.isCollapsed || sel.rangeCount == 0 then s
    else
      let selectedText := jsTrim sel.text
      if selectedText == "" then s
      else
        match sel.clientRects with
        | [] => s
        | firstRect :: restRects =>
          match pageContainer with
          | none => s
          | some pageRect =>
            let sd : SelectionData :=
              { pageNumber := pageNumber
                rects := relativeRects (firstRect :: restRects) pageRect
                text := selectedText
                position := buttonPosition firstRect pageRect }
            { s with selectionData := some sd }

/-- The id expression of `createHighlight`:
`Date.now().toString() + Math.random()`, parametrised by the clock reading
`time` and the random draw `rand`. -/
def genId (time : ℕ) (rand : String) : String :=
  toString time ++ rand

/-- `createHighlight`: guard `if (!selectionData) return`, then append the
new highlight, clear `selectionData`, and clear the browser selection via
`window.getSelection()?.removeAllRanges()`. -/
def createHighlight (time : ℕ) (rand : String) (s : ViewerState) : ViewerState :=
  match s.selectionData with
  | none => s
  | some sd =>
    let newHighlight : Highlight :=
      { id := genId time rand
        pageNumber := sd.pageNumber
        rects := sd.rects
        color := s.selectedColor.value
        text := sd.text }
    { s with highlights := s.highlights ++ [newHighlight]
             selectionData := none
             browserHasSelection := false }

/-- `showDeleteUI(highlightId)`: arms the delete affordance for that id. -/
def showDeleteUI (highlightId : String) (s : ViewerState) : ViewerState :=
  { s with highlightToDelete := some highlightId }

/-- `confirmRemoveHighlight(highlightId)`:
`setHighlights(prev => prev.filter(h => h.id !== highlightId));
setHighlightToDelete(null)`. -/
def confirmRemoveHighlight (highlightId : String) (s : ViewerState) : ViewerState :=
  { s with highlights := s.highlights.filter fun h => h.id != highlightId
           highlightToDelete := none }

/-- `clearAllHighlights`: `setHighlights([]); setHighlightToDelete(null)`. -/
def clearAllHighlights (s : ViewerState) : ViewerState :=
  { s with highlights := [], highlightToDelete := none }

/-- The `Document` element's `onClick` handler (click in the margins between
pages): `setSelectionData(null); setHighlightToDelete(null)`. -/
def dismissOverlayUIs (s : ViewerState) : ViewerState :=
  { s with selectionData := none, highlightToDelete := none }

/-- The color-picker button's `onClick`: `setSelectedColor(color)`. -/
def setSelectedColor (color : HighlightColor) (s : ViewerState) : ViewerState :=
  { s with selectedColor := color }

/-- The page filter of `renderHighlights`:
`highlights.filter(h => h.pageNumber === pageNumber)` — the store's
query-by-page view. -/
def queryByPage (s : ViewerState) (pageNumber : ℕ) : List Highlight :=
  s.highlights.filter fun h => h.pageNumber == pageNumber

/-- The user/browser events that can reach the overlay subsystem's handlers
in the rendered component. `capture` carries what the browser supplies to
`handleTextSelection` (the settled selection and the invoked page's bounding
rect, if mounted); `commit` carries the clock reading and random draw used by
the id expression in `createHighlight`. -/
inductive Event where
  | load (numPages : ℕ)
  | loadError
  | capture (pageNumber : ℕ) (selection : Option Selection) (pageContainer : Option DOMRect)
  | commit (time : ℕ) (rand : String)
  | arm (highlightId : String)
  | removeConfirm (highlightId : String)
  | clearAll
  | backgroundClick
  | pickColor (i : ℕ)
  deriving DecidableEq, Repr

/-- Firing an event runs the corresponding handler of `PDFViewer`. -/
def step (s : ViewerState) : Event → ViewerState
  | .load n => onDocumentLoadSuccess n s
  | .loadError => onDocumentLoadError s
  | .capture p sel ref => handleTextSelection p sel ref s
  | .commit t r => createHighlight t r s
  | .arm i => showDeleteUI i s
  | .removeConfirm i => confirmRemoveHighlight i s
  | .clearAll => clearAllHighlights s
  | .backgroundClick => dismissOverlayUIs s
  | .pickColor i => setSelectedColor (HIGHLIGHT_COLORS.getD i s.selectedColor) s

/-- Whether an event can fire in a given state. Page surfaces (and hence
`onMouseUp` captures for page `p`) exist only when no load error is shown and
`1 ≤ p ≤ numPages` (the component renders page divs for indices
`1 .. numPages` inside the error-free `Document`); a color-picker click
exists for each palette entry. All other handlers guard themselves. -/
def validEvent (s : ViewerState) : Event → Bool
  | .capture p _ _ => s.error.isNone && decide (1 ≤ p ∧ p ≤ s.numPages)
  | .pickColor i => decide (i < HIGHLIGHT_COLORS.length)
  | _ => true

/-- A trace is valid from `s` when each event is fireable in the state where
it fires. -/
def validTrace (s : ViewerState) : List Event → Bool
  | [] => true
  | e :: es => validEvent s e && validTrace (step s e) es

/-- Run a trace of events from a state. -/
def run (s : ViewerState) (es : List Event) : ViewerState :=
  es.foldl step s

/-- The inverse transformation named by the spec's round-trip property:
re-add the page offset to page-relative rectangles. -/
def toViewportRects (rects : List DOMRect) (pageRect : DOMRect) : List DOMRect :=
  rects.map fun rect =>
    { x := rect.x + pageRect.x, y := rect.y + pageRect.y,
      width := rect.width, height := rect.height }

/-- The page count an event reports (`0` for non-load events). -/
def loadedPages : Event → ℕ
  | .load n => n
  | _ => 0

/-- The largest page count any load event of a trace reports. -/
def maxLoaded (es : List Event) : ℕ :=
  es.foldr (fun e acc => max (loadedPages e) acc) 0

/-- Page-number bounds with respect to a budget `M`: the current page count
is at most `M`, and every stored highlight and any pending selection carries
a page number in `[1, M]`. -/
def PageInv (s : ViewerState) (M : ℕ) : Prop :=
  s.numPages ≤ M ∧
  (∀ hl ∈ s.highlights, 1 ≤ hl.pageNumber ∧ hl.pageNumber ≤ M) ∧
  (∀ sd, s.selectionData = some sd → 1 ≤ sd.pageNumber ∧ sd.pageNumber ≤ M)

/-! ## Concrete fixtures used by witnesses and counterexamples -/

/-- First client rectangle of the spec's worked scenario. -/
def sampleFirstRect : DOMRect := ⟨100, 50, 80, 20⟩

/-- Remaining client rectangles of the spec's worked scenario. -/
def sampleRestRects : List DOMRect := [⟨20, 72, 200, 20⟩]

/-- Page bounding box of the spec's worked scenario (`{x:500, y:1200}`). -/
def samplePageRect : DOMRect := ⟨500, 1200, 700, 900⟩

/-- A settled, non-degenerate browser selection. -/
def sampleSelection : Selection where
  isCollapsed := false
  rangeCount := 1
  text := " hi "
  clientRects := sampleFirstRect :: sampleRestRects

/-- A collapsed (degenerate) browser selection. -/
def collapsedSelection : Selection where
  isCollapsed := true
  rangeCount := 1
  text := "hi"
  clientRects := [⟨1, 2, 3, 4⟩]

/-- A pending selection on page 1. -/
def samplePending : SelectionData where
  pageNumber := 1
  rects := [⟨10, 20, 30, 40⟩]
  text := "hi"
  position := ⟨10, -20⟩

/-- A stored highlight with id `"h1"` on page 1. -/
def sampleHighlight : Highlight where
  id := "h1"
  pageNumber := 1
  rects := [⟨10, 20, 30, 40⟩]
  color := "rgba(255, 255, 0, 0.3)"
  text := "hi"

/-- A state with one stored highlight, a pending selection, and an armed
delete affordance — every piece of overlay state populated. -/
def armedPendingState : ViewerState where
  numPages := 3
  error := none
  highlights := [sampleHighlight]
  selectedColor := HIGHLIGHT_COLORS.getD 0 ⟨"", "", ""⟩
  selectionData := some samplePending
  highlightToDelete := some "h1"
  browserHasSelection := true

/-- A store holding two distinct highlights that share the id `"a"`
(reachable because the id expression can repeat, see the id-collision
theorem). -/
def dupIdState : ViewerState where
  numPages := 1
  error := none
  highlights :=
    [ { id := "a", pageNumber := 1, rects := [⟨0, 0, 1, 1⟩], color := "c", text := "t" },
      { id := "a", pageNumber := 1, rects := [⟨0, 2, 1, 1⟩], color := "c", text := "u" } ]
  selectedColor := HIGHLIGHT_COLORS.getD 0 ⟨"", "", ""⟩
  selectionData := none
  highlightToDelete := some "a"
  browserHasSelection := false

/-- A store holding two highlights with distinct ids `"a"`, `"b"`. -/
def twoIdState : ViewerState where
  numPages := 2
  error := none
  highlights :=
    [ { id := "a", pageNumber := 1, rects := [⟨0, 0, 1, 1⟩], color := "c", text := "t" },
      { id := "b", pageNumber := 2, rects := [⟨0, 2, 1, 1⟩], color := "c", text := "u" } ]
  selectedColor := HIGHLIGHT_COLORS.getD 0 ⟨"", "", ""⟩
  selectionData := none
  highlightToDelete := none
  browserHasSelection := false

/-- A trace committing the same selection twice while `Date.now()` reads 100
both times and `Math.random()` draws 0.5 both times. -/
def duplicateIdTrace : List Event :=
  [ .load 1, .capture 1 (some sampleSelection) (some samplePageRect), .commit 100 "0.5",
    .capture 1 (some sampleSelection) (some samplePageRect), .commit 100 "0.5" ]

/-- A trace that loads a 2-page document, highlights on page 2, then loads a
1-page document. -/
def shrinkTrace : List Event :=
  [ .load 2, .capture 2 (some sampleSelection) (some samplePageRect), .commit 100 "0.5",
    .load 1 ]

/-! ## C1 — clear-all -/

/-- C1 counterexample: `clearAllHighlights` does **not** clear the pending
selection. In a state with a pending selection, a stored highlight and an
armed delete affordance, clear-all leaves `selectionData` populated, contrary
to the claim that both interaction sub-machines are forced to their idle
states. -/
theorem clearAllHighlights_keeps_pending_selection :
    (clearAllHighlights armedPendingState).selectionData = some samplePending ∧
    (clearAllHighlights armedPendingState).selectionData ≠ none := by
  refine ⟨by decide, by decide⟩

/-- C1 (amended): for every store state, clear-all empties the Highlight
Store (`queryByPage p` is empty for every page `p`) and clears the
DeleteArmState (`highlightToDelete`), but leaves the PendingSelection
(`selectionData`) unchanged. -/
theorem clearAllHighlights_spec (s : ViewerState) (p : ℕ) :
    queryByPage (clearAllHighlights s) p = [] ∧
    (clearAllHighlights s).highlights = [] ∧
    (clearAllHighlights s).highlightToDelete = none ∧
    (clearAllHighlights s).selectionData = s.selectionData := by
  refine ⟨?_, rfl, rfl, rfl⟩
  simp [queryByPage, clearAllHighlights]

/-! ## C2 — document load -/

/-- C2 counterexample: a successful document load does **not** reset the
overlay state. Starting from a state with one stored highlight, a pending
selection and an armed delete affordance, `onDocumentLoadSuccess` leaves all
three populated (the app-level reset happens only because the hosting page
unmounts the viewer between documents). -/
theorem onDocumentLoadSuccess_keeps_overlay_state :
    (onDocumentLoadSuccess 5 armedPendingState).highlights ≠ [] ∧
    (onDocumentLoadSuccess 5 armedPendingState).selectionData ≠ none ∧
    (onDocumentLoadSuccess 5 armedPendingState).highlightToDelete ≠ none := by
  refine ⟨by decide, by decide, by decide⟩

/-- C2 (amended): for every prior state, a successful document load sets the
page count to the reported value and clears the load error, but leaves the
Highlight Store, the PendingSelection and the DeleteArmState unchanged,
regardless of the page-count relationship between old and new document. -/
theorem onDocumentLoadSuccess_spec (s : ViewerState) (n : ℕ) :
    (onDocumentLoadSuccess n s).numPages = n ∧
    (onDocumentLoadSuccess n s).error = none ∧
    (onDocumentLoadSuccess n s).highlights = s.highlights ∧
    (onDocumentLoadSuccess n s).selectionData = s.selectionData ∧
    (onDocumentLoadSuccess n s).highlightToDelete = s.highlightToDelete := by
  exact ⟨rfl, rfl, rfl, rfl, rfl⟩

/-! ## C3 — id uniqueness -/

/-- C3: the id expression `Date.now().toString() + Math.random()` gives no
uniqueness guarantee. Along a valid trace in which the clock reads the same
millisecond and the random generator repeats a draw, two committed highlights
receive the same id, so the store's ids are not pairwise distinct. -/
theorem createHighlight_id_collision :
    validTrace initState duplicateIdTrace = true ∧
    (run initState duplicateIdTrace).highlights.map Highlight.id =
      [genId 100 "0.5", genId 100 "0.5"] ∧
    ¬ ((run initState duplicateIdTrace).highlights.map Highlight.id).Nodup := by
  refine ⟨by decide, by decide, by decide⟩

/-! ## C10 — commit with no pending selection -/

/-- C10: invoking `createHighlight` when `selectionData` is null is a total
no-op: the returned state is the input state, so the Highlight Store, the
PendingSelection, the DeleteArmState and the browser selection are all
untouched. -/
theorem createHighlight_noop (time : ℕ) (rand : String) (s : ViewerState)
    (h : s.selectionData = none) :
    createHighlight time rand s = s := by
  simp [createHighlight, h]

/-- C10 witness: the no-op at the initial state. -/
theorem createHighlight_noop_witness :
    initState.selectionData = none ∧ createHighlight 100 "0.5" initState = initState :=
  ⟨rfl, createHighlight_noop 100 "0.5" initState rfl⟩

/-- Exhaustive description of `handleTextSelection`: either some guard fired
and the state is returned unchanged, or every guard passed and the state is
returned with `selectionData` set to the transformed selection. -/
theorem handleTextSelection_cases (p : ℕ) (selection : Option Selection)
    (pageContainer : Option DOMRect) (s : ViewerState) :
    handleTextSelection p selection pageContainer s = s ∨
    ∃ sel pageRect firstRect restRects,
      selection = some sel ∧ pageContainer = some pageRect ∧
      sel.isCollapsed = false ∧ sel.rangeCount ≠ 0 ∧ jsTrim sel.text ≠ "" ∧
      sel.clientRects = firstRect :: restRects ∧
      handleTextSelection p selection pageContainer s =
        { s with selectionData := some { pageNumber := p,
                                         rects := relativeRects (firstRect :: restRects) pageRect,
                                         text := jsTrim sel.text,
                                         position := buttonPosition firstRect pageRect } } := by
  cases selection with
  | none => exact Or.inl rfl
  | some sel =>
    by_cases h1 : (sel.isCollapsed || sel.rangeCount == 0) = true
    · exact Or.inl (by rw [handleTextSelection]; simp [h1])
    · by_cases h2 : jsTrim sel.text = ""
      · refine Or.inl ?_
        rw [handleTextSelection]
        cases hcr : sel.clientRects with
        | nil => cases pageContainer <;> simp [h1, h2, hcr]
        | cons f r => cases pageContainer <;> simp [h1, h2, hcr]
      · cases hcr : sel.clientRects with
        | nil =>
          refine Or.inl ?_
          rw [handleTextSelection]
          cases pageContainer <;> simp [h1, h2, hcr]
        | cons f r =>
          cases pageContainer with
          | none =>
            refine Or.inl ?_
            rw [handleTextSelection]
            simp [h1, h2, hcr]
          | some pageRect =>
            simp only [Bool.or_eq_true, beq_iff_eq, not_or] at h1
            refine Or.inr ⟨sel, pageRect, f, r, rfl, rfl, ?_, h1.2, h2, hcr, ?_⟩
            · simpa using h1.1
            · rw [handleTextSelection]
              simp [h1.1, h1.2, h2, hcr]

/-! ## C4 — commit of a pending selection -/

/-- C4: when a pending selection exists, `createHighlight` appends exactly
one new highlight at the end of the store whose `pageNumber`, `rects` and
`text` are copied from the pending selection and whose `color` is the active
palette color's fill value; the store grows by exactly one with every
previously stored highlight unchanged in place, the pending selection is
cleared, and the browser text selection is cleared. -/
theorem createHighlight_commits (time : ℕ) (rand : String) (s : ViewerState)
    (sd : SelectionData) (h : s.selectionData = some sd) :
    (createHighlight time rand s).highlights =
      s.highlights ++
        [{ id := genId time rand, pageNumber := sd.pageNumber, rects := sd.rects,
           color := s.selectedColor.value, text := sd.text }] ∧
    (createHighlight time rand s).highlights.length = s.highlights.length + 1 ∧
    (createHighlight time rand s).highlights.take s.highlights.length = s.highlights ∧
    (createHighlight time rand s).selectionData = none ∧
    (createHighlight time rand s).browserHasSelection = false := by
  simp [createHighlight, h, List.take_left]

/-- C4 witness: committing the pending selection of `armedPendingState`
appends one highlight copied from it. -/
theorem createHighlight_commits_witness :
    armedPendingState.selectionData = some samplePending ∧
    (createHighlight 100 "0.5" armedPendingState).highlights =
      armedPendingState.highlights ++
        [{ id := genId 100 "0.5", pageNumber := samplePending.pageNumber,
           rects := samplePending.rects, color := armedPendingState.selectedColor.value,
           text := samplePending.text }] :=
  ⟨rfl, (createHighlight_commits 100 "0.5" armedPendingState samplePending rfl).1⟩

/-! ## C5 — selection geometry -/

/-- C5: on the non-degenerate path, `handleTextSelection` stores a pending
selection whose rectangles are the client rectangles transformed to
page-relative coordinates — same length, same order, each rectangle's `x`/`y`
the input's left/top minus the page box's left/top with width and height
unchanged — and whose anchor is the first client rectangle's top-left minus
the page offset with 40 subtracted from the ordinate; a negative anchor
ordinate is produced as-is, never an error. -/
theorem handleTextSelection_geometry (p : ℕ) (sel : Selection) (pageRect : DOMRect)
    (s : ViewerState) (firstRect : DOMRect) (restRects : List DOMRect)
    (hcol : sel.isCollapsed = false) (hrange : sel.rangeCount ≠ 0)
    (htext : jsTrim sel.text ≠ "") (hrects : sel.clientRects = firstRect :: restRects) :
    (handleTextSelection p (some sel) (some pageRect) s).selectionData = some
      { pageNumber := p
        rects := relativeRects sel.clientRects pageRect
        text := jsTrim sel.text
        position := buttonPosition firstRect pageRect } ∧
    (relativeRects sel.clientRects pageRect).length = sel.clientRects.length ∧
    (∀ i : ℕ, (relativeRects sel.clientRects pageRect)[i]? =
      (sel.clientRects[i]?).map fun rect =>
        { x := rect.x - pageRect.x, y := rect.y - pageRect.y,
          width := rect.width, height := rect.height }) ∧
    buttonPosition firstRect pageRect =
      { x := firstRect.x - pageRect.x, y := firstRect.y - pageRect.y - 40 } := by
  refine ⟨?_, by simp [relativeRects], ?_, rfl⟩
  · rw [handleTextSelection, hrects]
    simp [hcol, hrange, htext]
  · intro i
    simp [relativeRects, List.getElem?_map]

/-- C5 witness: the spec's worked scenario — two client rectangles against
the page box `{x:500, y:1200}` yield the page-relative rectangles
`{x:-400, y:-1150}` and `{x:-480, y:-1128}` and the anchor
`{x:-400, y:-1190}` (negative ordinate, no error). -/
theorem handleTextSelection_geometry_witness :
    jsTrim sampleSelection.text ≠ "" ∧
    (handleTextSelection 2 (some sampleSelection) (some samplePageRect)
        initState).selectionData = some
      { pageNumber := 2
        rects := relativeRects sampleSelection.clientRects samplePageRect
        text := jsTrim sampleSelection.text
        position := buttonPosition sampleFirstRect samplePageRect } ∧
    relativeRects sampleSelection.clientRects samplePageRect =
      [⟨-400, -1150, 80, 20⟩, ⟨-480, -1128, 200, 20⟩] ∧
    buttonPosition sampleFirstRect samplePageRect = ⟨-400, -1190⟩ :=
  ⟨by decide,
   (handleTextSelection_geometry 2 sampleSelection samplePageRect initState
      sampleFirstRect sampleRestRects (by decide) (by decide) (by decide) (by decide)).1,
   by decide, by decide⟩

/-! ## C6 — round-trip geometry -/

/-- C6: transforming rectangles to page-relative coordinates and re-adding
the same page offset reconstructs the original viewport rectangles, for every
rectangle sequence and every non-negative offset. -/
theorem relativeRects_roundTrip (rects : List DOMRect) (pageRect : DOMRect)
    (hx : 0 ≤ pageRect.x) (hy : 0 ≤ pageRect.y) :
    toViewportRects (relativeRects rects pageRect) pageRect = rects := by
  induction rects with
  | nil => rfl
  | cons r rs ih =>
    simp only [relativeRects, toViewportRects, List.map_cons, List.cons.injEq] at ih ⊢
    refine ⟨?_, ih⟩
    cases r
    simp

/-- C6 witness: round trip of the spec scenario's rectangles through the
offset `{x:500, y:1200}`. -/
theorem relativeRects_roundTrip_witness :
    (0 : ℤ) ≤ samplePageRect.x ∧ (0 : ℤ) ≤ samplePageRect.y ∧
    toViewportRects (relativeRects (sampleFirstRect :: sampleRestRects) samplePageRect)
        samplePageRect = sampleFirstRect :: sampleRestRects :=
  ⟨by decide, by decide,
   relativeRects_roundTrip (sampleFirstRect :: sampleRestRects) samplePageRect
     (by decide) (by decide)⟩

/-! ## C7 — degenerate selection capture -/

/-- C7: when the settled selection is absent, collapsed, has zero ranges,
trims to the empty string, or spans zero client rectangles, or when the
invoked page's surface is not mounted, `handleTextSelection` is a silent
no-op: the whole viewer state is returned unchanged. -/
theorem handleTextSelection_degenerate (p : ℕ) (selection : Option Selection)
    (pageContainer : Option DOMRect) (s : ViewerState)
    (h : selection = none ∨
        (∃ sel, selection = some sel ∧
          (sel.isCollapsed = true ∨ sel.rangeCount = 0 ∨ jsTrim sel.text = "" ∨
            sel.clientRects = [])) ∨
        pageContainer = none) :
    handleTextSelection p selection pageContainer s = s := by
  rcases handleTextSelection_cases p selection pageContainer s with heq | hpos
  · exact heq
  · obtain ⟨sel, pageRect, f, r, hsel, hpage, hcol, hrange, htext, hcr, _⟩ := hpos
    exfalso
    rcases h with h | ⟨sel', hsel', hd⟩ | h
    · rw [h] at hsel; exact Option.noConfusion hsel
    · rw [hsel'] at hsel
      obtain rfl : sel' = sel := by injection hsel
      rcases hd with hd | hd | hd | hd
      · rw [hcol] at hd; exact Bool.noConfusion hd
      · exact hrange hd
      · exact htext hd
      · rw [hcr] at hd; exact List.noConfusion hd
    · rw [h] at hpage; exact Option.noConfusion hpage

/-- C7 witness: a collapsed selection over a fully populated state changes
nothing. -/
theorem handleTextSelection_degenerate_witness :
    collapsedSelection.isCollapsed = true ∧
    handleTextSelection 1 (some collapsedSelection) (some samplePageRect)
      armedPendingState = armedPendingState :=
  ⟨rfl, handleTextSelection_degenerate 1 (some collapsedSelection) (some samplePageRect)
    armedPendingState (Or.inr (Or.inl ⟨collapsedSelection, rfl, Or.inl rfl⟩))⟩

/-! ## C8 — removal by id -/

/-- Under pairwise-distinct ids, filtering out one present id drops exactly
one element. -/
theorem length_filter_id_ne (l : List Highlight) (i : String)
    (hnd : (l.map Highlight.id).Nodup) (hmem : ∃ hl ∈ l, hl.id = i) :
    (l.filter fun hl => hl.id != i).length + 1 = l.length := by
  induction l with
  | nil => rcases hmem with ⟨hl, hm, _⟩; exact absurd hm (List.not_mem_nil hl)
  | cons a l ih =>
    simp only [List.map_cons, List.nodup_cons] at hnd
    by_cases ha : a.id = i
    · have hrest : ∀ hl ∈ l, hl.id ≠ i := by
        intro hl hm heq
        exact hnd.1 (List.mem_map.mpr ⟨hl, hm, by rw [heq, ha]⟩)
      have hfix : (l.filter fun hl => hl.id != i) = l :=
        List.filter_eq_self.mpr fun hl hm => by simpa using hrest hl hm
      simp [List.filter_cons, ha, hfix]
    · have hmem' : ∃ hl ∈ l, hl.id = i := by
        rcases hmem with ⟨hl, hm, he⟩
        rcases List.mem_cons.mp hm with rfl | hm'
        · exact absurd he ha
        · exact ⟨hl, hm', he⟩
      have hlen := ih hnd.2 hmem'
      have hcons : ((a :: l).filter fun hl => hl.id != i) =
          a :: (l.filter fun hl => hl.id != i) := by
        simp [List.filter_cons, ha]
      rw [hcons, List.length_cons, List.length_cons]
      omega

/-- C8 counterexample: removal is implemented as a filter, so on a store that
holds two records sharing an id (possible, since ids are not guaranteed
unique) removing that id deletes **both** records — the store size drops by
two, not by exactly one, even though a highlight with that id was present. -/
theorem confirmRemoveHighlight_dup_cex :
    (∃ hl ∈ dupIdState.highlights, hl.id = "a") ∧
    (confirmRemoveHighlight "a" dupIdState).highlights.length ≠
      dupIdState.highlights.length - 1 := by
  refine ⟨by decide, by decide⟩

/-- C8 (amended): for every store state whose highlight ids are pairwise
distinct (the intended store invariant) and every id, removal removes at most
one matching record: the size decreases by exactly one when a highlight with
that id is present, the store is unchanged when the id is absent, no error is
surfaced in either case, and the non-matching highlights are kept unchanged
in their relative order; the armed delete state is cleared. -/
theorem confirmRemoveHighlight_spec (i : String) (s : ViewerState)
    (hnd : (s.highlights.map Highlight.id).Nodup) :
    ((∃ hl ∈ s.highlights, hl.id = i) →
      (confirmRemoveHighlight i s).highlights.length + 1 = s.highlights.length) ∧
    ((∀ hl ∈ s.highlights, hl.id ≠ i) →
      (confirmRemoveHighlight i s).highlights = s.highlights) ∧
    (confirmRemoveHighlight i s).highlights.Sublist s.highlights ∧
    (∀ hl ∈ s.highlights, hl.id ≠ i → hl ∈ (confirmRemoveHighlight i s).highlights) ∧
    (confirmRemoveHighlight i s).highlightToDelete = none := by
  refine ⟨fun hmem => length_filter_id_ne s.highlights i hnd hmem, ?_, ?_, ?_, rfl⟩
  · intro hall
    exact List.filter_eq_self.mpr fun hl hm => by simpa using hall hl hm
  · exact List.filter_sublist s.highlights
  · intro hl hm hne
    exact List.mem_filter.mpr ⟨hm, by simpa using hne⟩

/-- C8 witness: on a store with ids `"a"`, `"b"`, removing `"a"` drops
exactly one record. -/
theorem confirmRemoveHighlight_spec_witness :
    (twoIdState.highlights.map Highlight.id).Nodup ∧
    (confirmRemoveHighlight "a" twoIdState).highlights.length + 1 =
      twoIdState.highlights.length :=
  ⟨by decide, (confirmRemoveHighlight_spec "a" twoIdState (by decide)).1 (by decide)⟩

/-! ## C9 — page-number bounds -/

/-- C9 counterexample: along a valid trace the known page count **does**
shrink (a 2-page load followed by a 1-page load), and a highlight committed
on page 2 stays in the store with a page number above the new page count. -/
theorem pageCount_shrinks_cex :
    validTrace initState shrinkTrace = true ∧
    (run initState [Event.load 2]).numPages = 2 ∧
    (run initState shrinkTrace).numPages = 1 ∧
    (∃ hl ∈ (run initState shrinkTrace).highlights,
      ¬ hl.pageNumber ≤ (run initState shrinkTrace).numPages) := by
  refine ⟨by decide, by decide, by decide, by decide⟩

/-- Budget enlargement preserves `PageInv`. -/
theorem pageInv_mono {s : ViewerState} {M M' : ℕ} (h : M ≤ M') (hinv : PageInv s M) :
    PageInv s M' :=
  ⟨le_trans hinv.1 h,
   fun hl hm => ⟨(hinv.2.1 hl hm).1, le_trans (hinv.2.1 hl hm).2 h⟩,
   fun sd hsd => ⟨(hinv.2.2 sd hsd).1, le_trans (hinv.2.2 sd hsd).2 h⟩⟩

/-- `handleTextSelection` never touches the page count or the store, and any
pending selection it leaves behind either carries the invoked page number or
was already there. -/
theorem handleTextSelection_effect (p : ℕ) (selection : Option Selection)
    (pageContainer : Option DOMRect) (s : ViewerState) :
    (handleTextSelection p selection pageContainer s).numPages = s.numPages ∧
    (handleTextSelection p selection pageContainer s).highlights = s.highlights ∧
    ∀ sd, (handleTextSelection p selection pageContainer s).selectionData = some sd →
      sd.pageNumber = p ∨ s.selectionData = some sd := by
  rcases handleTextSelection_cases p selection pageContainer s with heq |
    ⟨sel, pageRect, f, r, _, _, _, _, _, _, heq⟩ <;> rw [heq]
  · exact ⟨rfl, rfl, fun sd h => Or.inr h⟩
  · refine ⟨rfl, rfl, fun sd h => Or.inl ?_⟩
    injection h with h
    rw [← h]

/-- Every event fired from a state satisfying `PageInv s M` leads to a state
satisfying the invariant with the budget enlarged by whatever page count the
event loads. -/
theorem step_pageInv {s : ViewerState} {M : ℕ} (e : Event)
    (hv : validEvent s e = true) (h : PageInv s M) :
    PageInv (step s e) (max M (loadedPages e)) := by
  obtain ⟨hnum, hhl, hsd⟩ := h
  have hM : M ≤ max M (loadedPages e) := le_max_left _ _
  cases e with
  | load n =>
    exact ⟨le_max_right M n,
      fun hl hm => ⟨(hhl hl hm).1, le_trans (hhl hl hm).2 hM⟩,
      fun sd h' => ⟨(hsd sd h').1, le_trans (hsd sd h').2 hM⟩⟩
  | loadError =>
    exact ⟨le_trans hnum hM,
      fun hl hm => ⟨(hhl hl hm).1, le_trans (hhl hl hm).2 hM⟩,
      fun sd h' => ⟨(hsd sd h').1, le_trans (hsd sd h').2 hM⟩⟩
  | capture p sel ref =>
    have he := handleTextSelection_effect p sel ref s
    have hp : 1 ≤ p ∧ p ≤ s.numPages := by
      simp only [validEvent, Bool.and_eq_true, decide_eq_true_eq] at hv
      exact hv.2
    refine ⟨?_, ?_, ?_⟩
    · show (handleTextSelection p sel ref s).numPages ≤ _
      rw [he.1]
      exact le_trans hnum hM
    · intro hl hm
      have hm' : hl ∈ (handleTextSelection p sel ref s).highlights := hm
      rw [he.2.1] at hm'
      exact ⟨(hhl hl hm').1, le_trans (hhl hl hm').2 hM⟩
    · intro sd h'
      have h'' : (handleTextSelection p sel ref s).selectionData = some sd := h'
      rcases he.2.2 sd h'' with hpn | hold
      · exact ⟨hpn ▸ hp.1, le_trans (hpn ▸ hp.2) (le_trans hnum hM)⟩
      · exact ⟨(hsd sd hold).1, le_trans (hsd sd hold).2 hM⟩
  | commit t r =>
    cases hsel : s.selectionData with
    | none =>
      have hstep : step s (.commit t r) = s := by
        simp [step, createHighlight, hsel]
      rw [hstep]
      exact pageInv_mono hM ⟨hnum, hhl, hsd⟩
    | some sd0 =>
      have hb := hsd sd0 hsel
      have hstep : (step s (.commit t r)).highlights =
          s.highlights ++
            [{ id := genId t r, pageNumber := sd0.pageNumber, rects := sd0.rects,
               color := s.selectedColor.value, text := sd0.text }] := by
        simp [step, createHighlight, hsel]
      have hnone : (step s (.commit t r)).selectionData = none := by
        simp [step, createHighlight, hsel]
      have hnp : (step s (.commit t r)).numPages = s.numPages := by
        simp [step, createHighlight, hsel]
      refine ⟨by rw [hnp]; exact le_trans hnum hM, ?_, ?_⟩
      · intro hl hm
        rw [hstep] at hm
        rcases List.mem_append.mp hm with hm' | hm'
        · exact ⟨(hhl hl hm').1, le_trans (hhl hl hm').2 hM⟩
        · have : hl.pageNumber = sd0.pageNumber := by
            rw [List.mem_singleton.mp hm']
          exact ⟨this ▸ hb.1, le_trans (this ▸ hb.2) hM⟩
      · intro sd h'
        rw [hnone] at h'
        exact Option.noConfusion h'
  | arm i =>
    exact pageInv_mono hM ⟨hnum, hhl, hsd⟩
  | removeConfirm i =>
    refine ⟨le_trans hnum hM, ?_,
      fun sd h' => ⟨(hsd sd h').1, le_trans (hsd sd h').2 hM⟩⟩
    intro hl hm
    have hm' : hl ∈ s.highlights := List.mem_of_mem_filter hm
    exact ⟨(hhl hl hm').1, le_trans (hhl hl hm').2 hM⟩
  | clearAll =>
    refine ⟨le_trans hnum hM, ?_,
      fun sd h' => ⟨(hsd sd h').1, le_trans (hsd sd h').2 hM⟩⟩
    intro hl hm
    exact absurd hm (List.not_mem_nil hl)
  | backgroundClick =>
    refine ⟨le_trans hnum hM,
      fun hl hm => ⟨(hhl hl hm).1, le_trans (hhl hl hm).2 hM⟩, ?_⟩
    intro sd h'
    exact Option.noConfusion h'
  | pickColor i =>
    exact pageInv_mono hM ⟨hnum, hhl, hsd⟩

/-- Running a valid trace preserves `PageInv`, enlarging the budget by the
largest loaded page count. -/
theorem run_pageInv : ∀ (es : List Event) (s : ViewerState) (M : ℕ),
    validTrace s es = true → PageInv s M → PageInv (run s es) (max M (maxLoaded es)) := by
  intro es
  induction es with
  | nil =>
    intro s M _ h
    simpa [run, maxLoaded] using h
  | cons e es ih =>
    intro s M hv h
    have hv' := (Bool.and_eq_true _ _).mp hv
    have h1 := step_pageInv e hv'.1 h
    have h2 := ih (step s e) (max M (loadedPages e)) hv'.2 h1
    have hrun : run s (e :: es) = run (step s e) es := rfl
    have hmax : max (max M (loadedPages e)) (maxLoaded es) = max M (maxLoaded (e :: es)) := by
      show _ = max M (max (loadedPages e) (maxLoaded es))
      rw [Nat.max_assoc]
    rw [hrun, ← hmax]
    exact h2

/-- C9 (amended): at every state reachable by a valid trace from the initial
state, every stored highlight and any pending selection has a page number
within `[1, M]`, where `M` is the largest page count any load of the trace
reported, and the current page count is at most `M`. The current page count
itself is replaced on each load and may shrink, and reloading does not clear
the store, so a stored page number may exceed the *current* count (see the
counterexample) — but never `M`. -/
theorem highlight_pages_bounded (es : List Event)
    (hv : validTrace initState es = true) :
    (∀ hl ∈ (run initState es).highlights,
      1 ≤ hl.pageNumber ∧ hl.pageNumber ≤ maxLoaded es) ∧
    (∀ sd, (run initState es).selectionData = some sd →
      1 ≤ sd.pageNumber ∧ sd.pageNumber ≤ maxLoaded es) ∧
    (run initState es).numPages ≤ maxLoaded es := by
  have h0 : PageInv initState 0 := by
    refine ⟨le_refl 0, ?_, ?_⟩
    · intro hl hm
      exact absurd hm (List.not_mem_nil hl)
    · intro sd h
      exact Option.noConfusion h
  have h := run_pageInv es initState 0 hv h0
  rw [Nat.zero_max] at h
  exact ⟨h.2.1, h.2.2, h.1⟩

/-- C9 witness: the bound instantiated on the shrinking trace — the committed
highlight's page number stays within `[1, 2]`, the largest loaded count. -/
theorem highlight_pages_bounded_witness :
    validTrace initState shrinkTrace = true ∧
    (∀ hl ∈ (run initState shrinkTrace).highlights,
      1 ≤ hl.pageNumber ∧ hl.pageNumber ≤ maxLoaded shrinkTrace) :=
  ⟨by decide, (highlight_pages_bounded shrinkTrace (by decide)).1⟩

end PDFMentor
